import Mathlib

/-!
Verification of the recurring-events hook (`src/hooks/useEvents.ts`) and the
route scorer (`src/components/DirectionsMap.tsx`) of the kalk-bay-v3 repository.

Modelling conventions for the shallow embedding:
* Wall-clock instants are natural numbers counting minutes since the epoch
  midnight (1970-01-01, a Thursday), with the runtime's local timezone taken
  as UTC.  A calendar date is its day number `t / 1440`; `JSDate.getDay`
  becomes `wd` below (day 0 is a Thursday, so weekday = (day + 4) % 7).
* `toISOString().split('T')[0]` on a date holding a whole number of days is
  the day number itself.
* An event's `date` field ("YYYY-MM-DD") is its day number; its `time` field
  ("HH:MM") is minutes after midnight.
-/

/-- Weekday of a day number: `(day + 4) % 7`, matching `Date.getDay`
(0 = Sunday); day 0 of the epoch is a Thursday (= 4). -/
def wd (day : Nat) : Nat := (day + 4) % 7

/-- Embedding of `getNextDate(dayOfWeek)` (useEvents.ts, current variant):
`daysUntil = dayOfWeek - today.getDay(); if (daysUntil <= 0) daysUntil += 7;`
then `today + daysUntil` days.  `now` is the current instant in minutes;
the result is a day number. -/
def getNextDate (dayOfWeek : Nat) (now : Nat) : Nat :=
  let today := now / 1440
  let currentDay := wd today
  let daysUntil : Int := (dayOfWeek : Int) - (currentDay : Int)
  let daysUntil := if daysUntil ≤ 0 then daysUntil + 7 else daysUntil
  today + daysUntil.toNat

/-- Embedding of `getNextServiceDate(dayOfWeek)` (useEvents.ts, earlier
variant): special-cases a Sunday past 12:00 and a Wednesday past 21:30,
otherwise falls through to the same `daysUntil` computation as
`getNextDate`. -/
def getNextServiceDate (dayOfWeek : Nat) (now : Nat) : Nat :=
  let today := now / 1440
  let currentDay := wd today
  let currentHour := (now % 1440) / 60
  let currentMinutes := now % 60
  if dayOfWeek = 0 ∧ currentDay = 0 ∧ 12 ≤ currentHour then
    today + 7
  else if dayOfWeek = 3 ∧ currentDay = 3 ∧
      (22 ≤ currentHour ∨ (currentHour = 21 ∧ 30 ≤ currentMinutes)) then
    today + 7
  else
    let daysUntil : Int := (dayOfWeek : Int) - (currentDay : Int)
    let daysUntil := if daysUntil ≤ 0 then daysUntil + 7 else daysUntil
    today + daysUntil.toNat

/-- The core property of the shared `daysUntil` computation: for a valid
weekday the result lands on that weekday, strictly 1 to 7 days after today. -/
lemma getNextDate_spec (d now : Nat) (hd : d < 7) :
    wd (getNextDate d now) = d ∧
      now / 1440 + 1 ≤ getNextDate d now ∧ getNextDate d now ≤ now / 1440 + 7 := by
  simp only [getNextDate, wd]
  split <;> omega

lemma getNextServiceDate_spec (d now : Nat) (hd : d < 7) :
    wd (getNextServiceDate d now) = d ∧
      now / 1440 + 1 ≤ getNextServiceDate d now ∧
      getNextServiceDate d now ≤ now / 1440 + 7 := by
  simp only [getNextServiceDate, wd]
  split
  · omega
  · split
    · omega
    · split <;> omega

/-- Embedding of the `recurrence` object of an event. -/
structure Recurrence where
  dayOfWeek : Nat
  frequency : String
deriving DecidableEq, Repr

/-- Embedding of the `Event` record (src/types) as used by useEvents.ts.
The `id` is the Firebase child key, modelled as a `Nat` issued by `push`;
`date` is a day number and `time` minutes after midnight (see header). -/
structure Event where
  id : Nat
  title : String
  description : String
  imageUrl : String
  date : Nat
  time : Nat
  type : String
  isPermanent : Bool
  recurrence : Option Recurrence
deriving DecidableEq, Repr

/-- The `events` node of the realtime database: the child list plus the
counter from which `push` issues fresh keys. -/
structure Store where
  events : List Event
  nextId : Nat
deriving DecidableEq, Repr

/-- Embedding of `DEFAULT_EVENTS[0]` (Sunday Service); the `date` field is a
placeholder, it is always overwritten at insertion. -/
def sundayTemplate : Event :=
  { id := 0
    title := "Sunday Service"
    description := "Sunday Service - a time worshiping in the Lord\x27s presence."
    imageUrl := "https://images.unsplash.com/photo-1438232992991-995b7058bbb3"
    date := 0
    time := 600
    type := "regular"
    isPermanent := true
    recurrence := some ⟨0, "weekly"⟩ }

/-- Embedding of `DEFAULT_EVENTS[1]` (Bible Study). -/
def wednesdayTemplate : Event :=
  { id := 0
    title := "Bible Study"
    description := "Weekly Bible study and fellowship."
    imageUrl := "https://images.unsplash.com/photo-1504052434569-70ad5836ab65"
    date := 0
    time := 1140
    type := "regular"
    isPermanent := true
    recurrence := some ⟨3, "weekly"⟩ }

/-- The scan in `initializePermanentEvents`: does the child list hold a
permanent event with a recurrence on weekday `d`
(`event.isPermanent && event.recurrence && recurrence.dayOfWeek === d`)? -/
def hasPermanentSlot (events : List Event) (d : Nat) : Bool :=
  events.any fun e =>
    e.isPermanent && (match e.recurrence with
      | some r => r.dayOfWeek == d
      | none => false)

/-- Embedding of `initializePermanentEvents` (useEvents.ts, current variant,
lines 191-231).  It reads the `events` node, looks for an existing permanent
event per slot (Sunday = 0, Wednesday = 3), builds `updates` holding one
freshly `push`-keyed default event per missing slot, and — when `updates` is
non-empty — executes `set(ref(database, 'events'), updates)`.  Per Firebase
`set` semantics this write REPLACES the whole `events` node with `updates`,
so the resulting store holds exactly the freshly inserted events. -/
def initializePermanentEvents (now : Nat) (s : Store) : Store :=
  let hasSunday := hasPermanentSlot s.events 0
  let hasWednesday := hasPermanentSlot s.events 3
  let updatesSun : List Event :=
    if hasSunday then []
    else [{ sundayTemplate with id := s.nextId, date := getNextDate 0 now }]
  let nid := if hasSunday then s.nextId else s.nextId + 1
  let updatesWed : List Event :=
    if hasWednesday then []
    else [{ wednesdayTemplate with id := nid, date := getNextDate 3 now }]
  let nid := if hasWednesday then nid else nid + 1
  let updates := updatesSun ++ updatesWed
  if updates.isEmpty then s
  else { events := updates, nextId := nid }

/-- Per-event body of `validateAndUpdatePermanentEvents` (useEvents.ts,
current variant, lines 233-255): for a permanent event with a recurrence,
`eventEnd = date+time + 2 hours`; when `now > eventEnd` an update replacing
only the `date` field with `getNextDate(recurrence.dayOfWeek)` is staged. -/
def reconcileEvent (now : Nat) (e : Event) : Option Event :=
  match e.recurrence with
  | some r =>
    if e.isPermanent then
      let eventDate := e.date * 1440 + e.time
      let eventEnd := eventDate + 120
      if eventEnd < now then some { e with date := getNextDate r.dayOfWeek now }
      else none
    else none
  | none => none

/-- Embedding of `validateAndUpdatePermanentEvents` (current variant): the
list of staged updates produced by the `forEach` loop. -/
def validateAndUpdatePermanentEvents (now : Nat) (events : List Event) :
    List Event :=
  events.filterMap (reconcileEvent now)

/-- Stable insertion used to model `allEvents.sort((a, b) => date - date)`
(JS `Array.prototype.sort` is stable): ascending by day number. -/
def insertByDate (e : Event) : List Event → List Event
  | [] => [e]
  | x :: xs => if x.date ≤ e.date then x :: insertByDate e xs else e :: x :: xs

/-- Sorted-by-date event list published by the notification callback. -/
def sortByDate : List Event → List Event
  | [] => []
  | e :: es => insertByDate e (sortByDate es)

/-- Error states the hook can report via `setError`. -/
inductive ErrKind where
  | fetchFailed
  | subscribeFailed
deriving DecidableEq, Repr

/-- Observable steps of one hook session (one run of the `useEffect` body of
`useEvents`, current variant, lines 188-300). -/
inductive SEvent where
  | seedInvoked
  | subscribed
  | seedWriteDone
  | unhandledRejection
  | notificationHandled
  | errorReported (k : ErrKind)
  | published
deriving DecidableEq, Repr

/-- Environment of one session: the store contents at mount, the clock, and
which of the four fallible remote operations fail. -/
structure SessionEnv where
  store : Store
  now : Nat
  seedReadFails : Bool
  seedWriteFails : Bool
  reconcileWriteFails : Bool
  channelFails : Bool
deriving DecidableEq, Repr

/-- Continuation of `initializePermanentEvents()` after its `await get(...)`
resolves.  The call site (line 257) neither awaits the returned promise nor
wraps it in try/catch, and the function body has no try/catch either, so a
failing `get` or failing `set` turns into an unhandled promise rejection;
no `setError` runs on this path. -/
def seedContinuation (env : SessionEnv) : List SEvent × Store :=
  if env.seedReadFails then ([SEvent.unhandledRejection], env.store)
  else if hasPermanentSlot env.store.events 0 &&
      hasPermanentSlot env.store.events 3 then
    ([], env.store)
  else if env.seedWriteFails then ([SEvent.unhandledRejection], env.store)
  else ([SEvent.seedWriteDone], initializePermanentEvents env.now env.store)

/-- Outcome of one delivery of the `onValue` callback. -/
structure NotifyResult where
  events : List SEvent
  published : Option (List Event)
  error : Option ErrKind
deriving DecidableEq, Repr

/-- Embedding of the `onValue` snapshot callback (lines 259-292): an empty
snapshot publishes `[]`; otherwise the staged reconciliation updates are
written (`await validateAndUpdatePermanentEvents`), and a rejection of that
write is caught by the callback's try/catch, which runs
`setError(... 'Failed to fetch events')` and skips `setEvents`; on success
the sorted list is published.  `setLoading(false)` runs in `finally` on
every path. -/
def notificationRun (env : SessionEnv) (snapshot : Store) : NotifyResult :=
  if snapshot.events.isEmpty then
    { events := [SEvent.notificationHandled, SEvent.published]
      published := some []
      error := none }
  else if !(validateAndUpdatePermanentEvents env.now snapshot.events).isEmpty
      && env.reconcileWriteFails then
    { events := [SEvent.notificationHandled,
                 SEvent.errorReported ErrKind.fetchFailed]
      published := none
      error := some ErrKind.fetchFailed }
  else
    { events := [SEvent.notificationHandled, SEvent.published]
      published := some (sortByDate snapshot.events)
      error := none }

/-- Final observable state of one hook session. -/
structure SessionResult where
  trace : List SEvent
  published : Option (List Event)
  error : Option ErrKind
  loading : Bool
  subscribed : Bool
  unhandled : Bool
deriving DecidableEq, Repr

/-- One session of `useEvents` (current variant) under the JS event loop:
the effect body invokes `initializePermanentEvents()` (which runs to its
first `await`, the `get`, and suspends — the promise is not awaited) and
then immediately calls `onValue`, establishing the subscription; the seed
continuation runs when the `get` resolves, before the first notification is
delivered.  A channel failure triggers the `onValue` error callback
(`setError(... 'Failed to subscribe to events')`; `setLoading(false)`)
instead of a notification. -/
def runSession (env : SessionEnv) : SessionResult :=
  let seedPart := seedContinuation env
  if env.channelFails then
    { trace := [SEvent.seedInvoked, SEvent.subscribed] ++ seedPart.1 ++
        [SEvent.errorReported ErrKind.subscribeFailed]
      published := none
      error := some ErrKind.subscribeFailed
      loading := false
      subscribed := true
      unhandled := seedPart.1.contains SEvent.unhandledRejection }
  else
    let n := notificationRun env seedPart.2
    { trace := [SEvent.seedInvoked, SEvent.subscribed] ++ seedPart.1 ++ n.events
      published := n.published
      error := n.error
      loading := false
      subscribed := true
      unhandled := seedPart.1.contains SEvent.unhandledRejection }

/-- Does some occurrence of `a` appear strictly before some occurrence of
`b` in the trace? -/
def occursBefore (a b : SEvent) : List SEvent → Bool
  | [] => false
  | x :: xs => (x == a && xs.contains b) || occursBefore a b xs

/-- Travel modes of the directions request (map/types). -/
inductive TravelMode where
  | DRIVING
  | WALKING
  | BICYCLING
  | TRANSIT
deriving DecidableEq, Repr

/-- A geographic point, as far as the scorer observes it. -/
structure LatLng where
  lat : ℚ
  lng : ℚ
deriving DecidableEq, Repr, Inhabited

/-- One step of a leg; the scorer reads only its `travel_mode`. -/
structure DirStep where
  travel_mode : TravelMode
deriving DecidableEq, Repr

/-- One leg of a candidate route, with the fields `calculateRoute` reads.
Numeric `value` fields are rationals (seconds / metres); optional fields
model the `?.value` accesses in the source. -/
structure DirLeg where
  duration : Option ℚ
  distance : Option ℚ
  duration_in_traffic : Option ℚ
  steps : Option (List DirStep)
  start_location : LatLng
  end_location : LatLng
deriving DecidableEq, Repr, Inhabited

/-- A candidate route returned by the directions provider. -/
structure DirRoute where
  legs : List DirLeg
deriving DecidableEq, Repr, Inhabited

/-- JavaScript numbers as the scorer uses them: finite values are exact
rationals, plus the two infinities and NaN (the score starts from
`leg.duration?.value ?? Infinity`). -/
inductive JVal where
  | nan
  | negInf
  | posInf
  | fin (q : ℚ)
deriving DecidableEq, Repr

/-- JS `+` on `JVal`. -/
def jadd : JVal → JVal → JVal
  | JVal.nan, _ => JVal.nan
  | _, JVal.nan => JVal.nan
  | JVal.posInf, JVal.negInf => JVal.nan
  | JVal.negInf, JVal.posInf => JVal.nan
  | JVal.posInf, _ => JVal.posInf
  | _, JVal.posInf => JVal.posInf
  | JVal.negInf, _ => JVal.negInf
  | _, JVal.negInf => JVal.negInf
  | JVal.fin p, JVal.fin q => JVal.fin (p + q)

/-- JS `*` on `JVal`. -/
def jmul : JVal → JVal → JVal
  | JVal.nan, _ => JVal.nan
  | _, JVal.nan => JVal.nan
  | JVal.posInf, JVal.posInf => JVal.posInf
  | JVal.posInf, JVal.negInf => JVal.negInf
  | JVal.negInf, JVal.posInf => JVal.negInf
  | JVal.negInf, JVal.negInf => JVal.posInf
  | JVal.posInf, JVal.fin q =>
    if q = 0 then JVal.nan else if 0 < q then JVal.posInf else JVal.negInf
  | JVal.fin q, JVal.posInf =>
    if q = 0 then JVal.nan else if 0 < q then JVal.posInf else JVal.negInf
  | JVal.negInf, JVal.fin q =>
    if q = 0 then JVal.nan else if 0 < q then JVal.negInf else JVal.posInf
  | JVal.fin q, JVal.negInf =>
    if q = 0 then JVal.nan else if 0 < q then JVal.negInf else JVal.posInf
  | JVal.fin p, JVal.fin q => JVal.fin (p * q)

/-- JS `/` on `JVal` (one zero, as in ℚ; negative zero is not modelled). -/
def jdiv : JVal → JVal → JVal
  | JVal.nan, _ => JVal.nan
  | _, JVal.nan => JVal.nan
  | JVal.posInf, JVal.posInf => JVal.nan
  | JVal.posInf, JVal.negInf => JVal.nan
  | JVal.negInf, JVal.posInf => JVal.nan
  | JVal.negInf, JVal.negInf => JVal.nan
  | JVal.posInf, JVal.fin q => if q < 0 then JVal.negInf else JVal.posInf
  | JVal.negInf, JVal.fin q => if q < 0 then JVal.posInf else JVal.negInf
  | JVal.fin _, JVal.posInf => JVal.fin 0
  | JVal.fin _, JVal.negInf => JVal.fin 0
  | JVal.fin p, JVal.fin q =>
    if q = 0 then
      if p = 0 then JVal.nan else if 0 < p then JVal.posInf else JVal.negInf
    else JVal.fin (p / q)

/-- JS `<` on `JVal` (false whenever either side is NaN). -/
def jlt : JVal → JVal → Bool
  | JVal.nan, _ => false
  | _, JVal.nan => false
  | JVal.negInf, JVal.negInf => false
  | JVal.negInf, _ => true
  | _, JVal.negInf => false
  | JVal.posInf, _ => false
  | JVal.fin _, JVal.posInf => true
  | JVal.fin p, JVal.fin q => decide (p < q)

/-- Embedding of the per-route score of `calculateRoute`
(DirectionsMap.tsx, lines 122-154).  `geom` stands for the external
`computeDistanceBetween`; note that `leg.duration_in_traffic?.value` is
tested for JS truthiness (undefined and 0 both skip the traffic factor),
and that `if (leg.steps)` is true also for an empty steps array. -/
def routeScore (geom : LatLng → LatLng → ℚ) (mode : TravelMode)
    (leg : DirLeg) : JVal :=
  let durationValue : JVal :=
    match leg.duration with
    | some v => JVal.fin v
    | none => JVal.posInf
  let score := durationValue
  let distanceValue : ℚ := leg.distance.getD 0
  let directDistance : ℚ := geom leg.start_location leg.end_location
  let detourFactor : JVal := jdiv (JVal.fin distanceValue) (JVal.fin directDistance)
  let score := jmul score detourFactor
  let score :=
    if mode = TravelMode.DRIVING ∧ leg.duration_in_traffic.getD 0 ≠ 0 then
      jmul score (jdiv (JVal.fin (leg.duration_in_traffic.getD 0)) durationValue)
    else score
  let score :=
    match leg.steps with
    | some st => jadd score (JVal.fin ((st.length : ℚ) * 30))
    | none => score
  let score :=
    if mode = TravelMode.TRANSIT then
      match leg.steps with
      | some st =>
        let transitSteps := st.filter fun s => s.travel_mode == TravelMode.TRANSIT
        jadd score (JVal.fin ((((transitSteps.length : ℤ) - 1 : ℤ) : ℚ) * 900))
      | none => score
    else score
  score

/-- The selection loop of `calculateRoute` (lines 115-160): starting from
`bestRoute = routes[0]`, `bestScore = Infinity`, each route with a first leg
is scored and replaces the incumbent exactly when its score is strictly
smaller. -/
def pickBest (geom : LatLng → LatLng → ℚ) (mode : TravelMode) :
    DirRoute → JVal → List DirRoute → DirRoute × JVal
  | best, bestScore, [] => (best, bestScore)
  | best, bestScore, r :: rs =>
    match r.legs.head? with
    | none => pickBest geom mode best bestScore rs
    | some leg =>
      let score := routeScore geom mode leg
      if jlt score bestScore then pickBest geom mode r score rs
      else pickBest geom mode best bestScore rs

/-- The route `calculateRoute` keeps (`optimizedResult.routes = [bestRoute]`);
`none` models the `No routes found` throw on an empty candidate list. -/
def calculateRouteBest (geom : LatLng → LatLng → ℚ) (mode : TravelMode)
    (routes : List DirRoute) : Option DirRoute :=
  match routes with
  | [] => none
  | r0 :: _ => some (pickBest geom mode r0 JVal.posInf routes).1

/-- First leg of a route (total, for stating score properties; every claim
using it assumes `legs ≠ []`). -/
def headLegD (r : DirRoute) : DirLeg := r.legs.head?.getD default

/-- Score formula written from the words of the specification (§4.2):
duration × (actual/direct distance ratio) × (traffic/base-duration ratio,
driving only) + step count × 30 s + transit-transfer count × 900 s, where
the transfer count of a leg with n transit steps is n − 1. -/
def specScore (geom : LatLng → LatLng → ℚ) (mode : TravelMode)
    (leg : DirLeg) : ℚ :=
  leg.duration.getD 0 *
      (leg.distance.getD 0 / geom leg.start_location leg.end_location) *
      (if mode = TravelMode.DRIVING ∧ leg.duration_in_traffic.isSome then
        leg.duration_in_traffic.getD 0 / leg.duration.getD 0
      else 1) +
    ((leg.steps.getD []).length : ℚ) * 30 +
    (if mode = TravelMode.TRANSIT then
      (((((leg.steps.getD []).filter fun s =>
            s.travel_mode == TravelMode.TRANSIT).length : ℤ) - 1 : ℤ) : ℚ) * 900
    else 0)

/-- Spec-side score of a route (via its first leg). -/
def routeSpecScore (geom : LatLng → LatLng → ℚ) (mode : TravelMode)
    (r : DirRoute) : ℚ :=
  specScore geom mode (headLegD r)

/-- Well-formedness of a leg under which the code score is the finite
rational of the specification formula: a present non-zero duration, a
non-zero direct distance, a present steps array, and (driving only) no
zero-valued traffic duration. -/
def legWF (geom : LatLng → LatLng → ℚ) (mode : TravelMode)
    (leg : DirLeg) : Prop :=
  leg.duration.getD 0 ≠ 0 ∧
  geom leg.start_location leg.end_location ≠ 0 ∧
  leg.steps.isSome = true ∧
  (mode = TravelMode.DRIVING → leg.duration_in_traffic ≠ some 0)

/-- Spec-side selection fold: strict improvement only, so the earliest
route with the minimal score wins. -/
def specFold (f : DirRoute → ℚ) (b : DirRoute) : List DirRoute → DirRoute
  | [] => b
  | r :: rs => if f r < f b then specFold f r rs else specFold f b rs

/-- A non-permanent event used as a concrete store inhabitant. -/
def communityPicnic : Event :=
  { id := 7
    title := "Community Picnic"
    description := "Bring a plate."
    imageUrl := ""
    date := 100
    time := 600
    type := "special"
    isPermanent := false
    recurrence := none }

/-- A store holding exactly one permanent Sunday-slot event. -/
def oneSlotStore : Store :=
  { events := [{ sundayTemplate with id := 3, date := 3 }], nextId := 4 }

/-- C1: the claim says seeding only inserts events for missing slots and
deletes nothing; in fact the seeding write is `set` on the whole `events`
node, so on a store holding one non-permanent event (both slots missing)
the pre-existing event is gone after seeding, which replaced the node with
just the two seeded events. -/
theorem seeding_deletes_preexisting_event :
    communityPicnic ∈ (Store.mk [communityPicnic] 8).events ∧
    communityPicnic ∉ (initializePermanentEvents 0 (Store.mk [communityPicnic] 8)).events ∧
    (initializePermanentEvents 0 (Store.mk [communityPicnic] 8)).events.length = 2 := by
  decide

/-- C4: the claim says two seeding runs on any store leave exactly two
permanent events (one per slot); on a store holding only a Sunday-slot
event, the first run seeds Wednesday but `set` deletes the Sunday event,
and the second run seeds Sunday and deletes that Wednesday event — one
permanent event remains and the Wednesday slot is again missing. -/
theorem seeding_twice_loses_a_slot :
    ((initializePermanentEvents 0 (initializePermanentEvents 0 oneSlotStore)).events.filter
        (fun e => e.isPermanent)).length = 1 ∧
    hasPermanentSlot
      (initializePermanentEvents 0 (initializePermanentEvents 0 oneSlotStore)).events 0 = true ∧
    hasPermanentSlot
      (initializePermanentEvents 0 (initializePermanentEvents 0 oneSlotStore)).events 3 = false := by
  decide

/-- C2: a staged update exists exactly when `now > date+time + 2h`, it
replaces only the `date` field with `getNextDate(recurrence.dayOfWeek)`,
and an event dated today (on its recurrence weekday) whose window has
elapsed is advanced exactly 7 days, to the same weekday next week. -/
theorem reconcile_stages_iff_window_elapsed (now : Nat) (e : Event)
    (r : Recurrence) (hp : e.isPermanent = true) (hr : e.recurrence = some r) :
    (reconcileEvent now e =
      if e.date * 1440 + e.time + 120 < now then
        some { e with date := getNextDate r.dayOfWeek now }
      else none) ∧
    (e.date = now / 1440 → wd e.date = r.dayOfWeek →
      e.date * 1440 + e.time + 120 < now →
      reconcileEvent now e = some { e with date := e.date + 7 }) := by
  have hbody : reconcileEvent now e =
      if e.date * 1440 + e.time + 120 < now then
        some { e with date := getNextDate r.dayOfWeek now }
      else none := by
    simp [reconcileEvent, hr, hp]
  refine ⟨hbody, fun h1 h2 h3 => ?_⟩
  have hnd : getNextDate r.dayOfWeek now = e.date + 7 := by
    simp only [getNextDate]
    rw [← h1, ← h2]
    split <;> omega
  rw [hbody, if_pos h3, hnd]

/-- Witness for the C2 theorem: a permanent Sunday event dated day 3
(a Sunday) at 10:00, observed at minute 5041 (day 3, 12:01), one minute
past its two-hour window, is staged to day 10. -/
theorem reconcile_stages_iff_window_elapsed_witness :
    reconcileEvent 5041 { sundayTemplate with id := 2, date := 3 } =
      some { sundayTemplate with id := 2, date := 3 + 7 } :=
  (reconcile_stages_iff_window_elapsed 5041
      { sundayTemplate with id := 2, date := 3 } ⟨0, "weekly"⟩
      (by decide) (by decide)).2 (by decide) (by decide) (by decide)

/-- C3: every staged reconciliation update strictly advances the event's
date and lands on the recurrence weekday. -/
theorem reconcile_never_moves_date_backward (now : Nat) (e e' : Event)
    (r : Recurrence) (hr : e.recurrence = some r) (hd : r.dayOfWeek < 7)
    (h : reconcileEvent now e = some e') :
    e.date < e'.date ∧ wd e'.date = r.dayOfWeek := by
  simp only [reconcileEvent, hr] at h
  split at h
  case isTrue =>
    split at h
    case isTrue hcond =>
      injection h with h
      subst h
      obtain ⟨hw, hlo, hhi⟩ := getNextDate_spec r.dayOfWeek now hd
      exact ⟨by show e.date < getNextDate r.dayOfWeek now; omega, hw⟩
    case isFalse _ => simp at h
  case isFalse _ => simp at h

/-- Witness for the C3 theorem at the same concrete stale Sunday event. -/
theorem reconcile_never_moves_date_backward_witness :
    ({ sundayTemplate with id := 2, date := 3 } : Event).date <
      ({ sundayTemplate with id := 2, date := 10 } : Event).date ∧
    wd ({ sundayTemplate with id := 2, date := 10 } : Event).date = 0 :=
  reconcile_never_moves_date_backward 5041
    { sundayTemplate with id := 2, date := 3 }
    { sundayTemplate with id := 2, date := 10 }
    ⟨0, "weekly"⟩ (by decide) (by decide) (by decide)

/-- C5: both next-weekday-date functions return a date on the requested
weekday, strictly 1 to 7 days after today — never today itself. -/
theorem nextDate_weekday_bounds (d now : Nat) (hd : d ≤ 6) :
    (wd (getNextDate d now) = d ∧
      now / 1440 + 1 ≤ getNextDate d now ∧ getNextDate d now ≤ now / 1440 + 7) ∧
    (wd (getNextServiceDate d now) = d ∧
      now / 1440 + 1 ≤ getNextServiceDate d now ∧
      getNextServiceDate d now ≤ now / 1440 + 7) :=
  ⟨getNextDate_spec d now (by omega), getNextServiceDate_spec d now (by omega)⟩

/-- Witness for the C5 theorem at weekday 0 on the epoch instant. -/
theorem nextDate_weekday_bounds_witness :
    (wd (getNextDate 0 0) = 0 ∧
      0 / 1440 + 1 ≤ getNextDate 0 0 ∧ getNextDate 0 0 ≤ 0 / 1440 + 7) ∧
    (wd (getNextServiceDate 0 0) = 0 ∧
      0 / 1440 + 1 ≤ getNextServiceDate 0 0 ∧
      getNextServiceDate 0 0 ≤ 0 / 1440 + 7) :=
  nextDate_weekday_bounds 0 0 (by decide)

/-- C6 counterexample: at minute 4320 (midnight of day 3, a Sunday, so
today's weekday matches the Sunday slot and the 10:00+2h window has not
elapsed) seeding an empty store assigns the Sunday event day 10 — a week
ahead — not today (day 3) as the claim states. -/
theorem seeded_date_ignores_today :
    wd (4320 / 1440) = 0 ∧
    4320 < 3 * 1440 + 600 + 120 ∧
    (∃ e ∈ (initializePermanentEvents 4320 (Store.mk [] 0)).events,
      e.recurrence = some ⟨0, "weekly"⟩ ∧ e.date = 10) ∧
    (∀ e ∈ (initializePermanentEvents 4320 (Store.mk [] 0)).events,
      e.date ≠ 4320 / 1440) := by
  decide

/-- C6 amended: each missing slot is seeded with `getNextDate` of its
weekday, which is strictly after today — 1 to 7 days ahead on the matching
weekday — and today never qualifies, regardless of the occurrence window. -/
theorem seeding_assigns_future_matching_date (now : Nat) (s : Store) :
    (hasPermanentSlot s.events 0 = false →
      ∃ e ∈ (initializePermanentEvents now s).events,
        e.recurrence = some ⟨0, "weekly"⟩ ∧ e.date = getNextDate 0 now) ∧
    (hasPermanentSlot s.events 3 = false →
      ∃ e ∈ (initializePermanentEvents now s).events,
        e.recurrence = some ⟨3, "weekly"⟩ ∧ e.date = getNextDate 3 now) ∧
    (∀ d, d < 7 →
      wd (getNextDate d now) = d ∧ now / 1440 + 1 ≤ getNextDate d now ∧
        getNextDate d now ≤ now / 1440 + 7) := by
  refine ⟨?_, ?_, fun d hd => getNextDate_spec d now hd⟩
  · intro h0
    by_cases h3 : hasPermanentSlot s.events 3 <;>
      simp [initializePermanentEvents, h0, h3, sundayTemplate]
  · intro h3
    by_cases h0 : hasPermanentSlot s.events 0 <;>
      simp [initializePermanentEvents, h0, h3, wednesdayTemplate]

/-- Witness for the C6 amended theorem on an empty store. -/
theorem seeding_assigns_future_matching_date_witness :
    ∃ e ∈ (initializePermanentEvents 0 (Store.mk [] 0)).events,
      e.recurrence = some ⟨0, "weekly"⟩ ∧ e.date = getNextDate 0 0 :=
  (seeding_assigns_future_matching_date 0 (Store.mk [] 0)).1 (by decide)

/-- The seed continuation emits one of three step lists. -/
lemma seedContinuation_shapes (env : SessionEnv) :
    (seedContinuation env).1 = [SEvent.unhandledRejection] ∨
    (seedContinuation env).1 = [] ∨
    (seedContinuation env).1 = [SEvent.seedWriteDone] := by
  unfold seedContinuation
  split
  · exact Or.inl rfl
  · split
    · exact Or.inr (Or.inl rfl)
    · split
      · exact Or.inl rfl
      · exact Or.inr (Or.inr rfl)

/-- The notification callback emits one of two step lists. -/
lemma notificationRun_shapes (env : SessionEnv) (snapshot : Store) :
    (notificationRun env snapshot).events =
      [SEvent.notificationHandled, SEvent.published] ∨
    (notificationRun env snapshot).events =
      [SEvent.notificationHandled, SEvent.errorReported ErrKind.fetchFailed] := by
  unfold notificationRun
  split
  · exact Or.inl rfl
  · split
    · exact Or.inr rfl
    · exact Or.inl rfl

/-- An environment in which every remote operation succeeds, on an initially
empty store. -/
def quietEnv : SessionEnv :=
  { store := Store.mk [] 0
    now := 0
    seedReadFails := false
    seedWriteFails := false
    reconcileWriteFails := false
    channelFails := false }

/-- C7 counterexample: the effect body fires `initializePermanentEvents()`
without awaiting it and calls `onValue` immediately, so in a fully
successful session the seeding write lands only AFTER the subscription is
established — never before it, as the claim states. -/
theorem seed_write_lands_after_subscribe :
    occursBefore SEvent.seedWriteDone SEvent.subscribed
      (runSession quietEnv).trace = false ∧
    (runSession quietEnv).trace.contains SEvent.seedWriteDone = true ∧
    (runSession quietEnv).trace.contains SEvent.subscribed = true ∧
    occursBefore SEvent.subscribed SEvent.seedWriteDone
      (runSession quietEnv).trace = true := by
  decide

/-- C7 amended: in every session, seeding is invoked exactly once, its
invocation precedes the establishment of the subscription, its write (when
one happens) lands only after the subscription is established — the call is
not awaited and there is no initialized flag; single invocation comes from
the one-shot effect body — and the notification callback never invokes
seeding. -/
theorem session_seeds_once_before_subscribe (env : SessionEnv) :
    (runSession env).trace.count SEvent.seedInvoked = 1 ∧
    occursBefore SEvent.seedInvoked SEvent.subscribed
      (runSession env).trace = true ∧
    occursBefore SEvent.subscribed SEvent.seedWriteDone (runSession env).trace =
      (runSession env).trace.contains SEvent.seedWriteDone ∧
    (∀ snapshot : Store,
      (notificationRun env snapshot).events.contains SEvent.seedInvoked = false) := by
  have hTrace : (runSession env).trace =
      [SEvent.seedInvoked, SEvent.subscribed] ++ (seedContinuation env).1 ++
        (if env.channelFails then [SEvent.errorReported ErrKind.subscribeFailed]
         else (notificationRun env (seedContinuation env).2).events) := by
    by_cases hc : env.channelFails <;> simp [runSession, hc]
  refine ⟨?_, ?_, ?_, fun snapshot => ?_⟩
  · rw [hTrace]
    rcases seedContinuation_shapes env with h | h | h <;> rw [h] <;>
      by_cases hc : env.channelFails <;> simp only [hc, if_true, if_false] <;>
        first
          | decide
          | (rcases notificationRun_shapes env (seedContinuation env).2 with h2 | h2 <;>
              rw [h2] <;> decide)
  · rw [hTrace]
    rcases seedContinuation_shapes env with h | h | h <;> rw [h] <;>
      by_cases hc : env.channelFails <;> simp only [hc, if_true, if_false] <;>
        first
          | decide
          | (rcases notificationRun_shapes env (seedContinuation env).2 with h2 | h2 <;>
              rw [h2] <;> decide)
  · rw [hTrace]
    rcases seedContinuation_shapes env with h | h | h <;> rw [h] <;>
      by_cases hc : env.channelFails <;> simp only [hc, if_true, if_false] <;>
        first
          | decide
          | (rcases notificationRun_shapes env (seedContinuation env).2 with h2 | h2 <;>
              rw [h2] <;> decide)
  · rcases notificationRun_shapes env snapshot with h2 | h2 <;> rw [h2] <;> decide

/-- An environment whose seeding read fails, over a store holding one
non-permanent event. -/
def seedFailEnv : SessionEnv :=
  { store := Store.mk [communityPicnic] 8
    now := 0
    seedReadFails := true
    seedWriteFails := false
    reconcileWriteFails := false
    channelFails := false }

/-- C8 counterexample: a seeding read failure is NOT surfaced — the call
site has no try/catch and does not await, so it only produces an unhandled
promise rejection, while the hook's error state stays empty (the session
does still subscribe). -/
theorem seed_failure_not_surfaced :
    (runSession seedFailEnv).unhandled = true ∧
    (runSession seedFailEnv).error = none ∧
    (runSession seedFailEnv).subscribed = true := by
  decide

/-- C8 amended: the hook always reaches the subscribed state with loading
cleared; a subscription-channel failure and a reconciliation write failure
are caught and surfaced through the error state; a seeding read/write
failure is never surfaced — with no other failure the error state stays
empty — and a failing seeding read becomes an unhandled rejection. -/
theorem session_error_surfacing (env : SessionEnv) :
    (runSession env).subscribed = true ∧
    (runSession env).loading = false ∧
    (env.channelFails = true →
      (runSession env).error = some ErrKind.subscribeFailed) ∧
    (env.channelFails = false → env.reconcileWriteFails = false →
      (runSession env).error = none) ∧
    (env.channelFails = false → env.reconcileWriteFails = true →
      (seedContinuation env).2.events.isEmpty = false →
      (validateAndUpdatePermanentEvents env.now
          (seedContinuation env).2.events).isEmpty = false →
      (runSession env).error = some ErrKind.fetchFailed) ∧
    (env.seedReadFails = true → (runSession env).unhandled = true) := by
  by_cases hc : env.channelFails
  · refine ⟨by simp [runSession, hc], by simp [runSession, hc],
      fun _ => by simp [runSession, hc],
      fun h _ => absurd hc (by simp [h]),
      fun h _ _ _ => absurd hc (by simp [h]),
      fun hs => by simp [runSession, hc, seedContinuation, hs]⟩
  · have hc' : env.channelFails = false := by simpa using hc
    refine ⟨by simp [runSession, hc'], by simp [runSession, hc'],
      fun h => absurd h (by simp [hc']), fun _ hrf => ?_, fun _ hrf hne hst => ?_,
      fun hs => by simp [runSession, hc', seedContinuation, hs]⟩
    · simp only [runSession, hc', Bool.false_eq_true, if_false]
      unfold notificationRun
      split
      · rfl
      · rw [hrf]
        simp
    · simp only [runSession, hc', Bool.false_eq_true, if_false]
      unfold notificationRun
      rw [if_neg (by simp [hne]), if_pos (by simp [hst, hrf])]

/-- An environment whose subscription channel fails. -/
def channelFailEnv : SessionEnv :=
  { store := Store.mk [] 0
    now := 0
    seedReadFails := false
    seedWriteFails := false
    reconcileWriteFails := false
    channelFails := true }

/-- Witness for the C8 amended theorem: on a channel failure the session is
still subscribed and the subscription error is surfaced. -/
theorem session_error_surfacing_witness :
    (runSession channelFailEnv).subscribed = true ∧
    (runSession channelFailEnv).error = some ErrKind.subscribeFailed :=
  ⟨(session_error_surfacing channelFailEnv).1,
   (session_error_surfacing channelFailEnv).2.2.1 rfl⟩

lemma head?_eq_headLegD (r : DirRoute) (h : r.legs ≠ []) :
    r.legs.head? = some (headLegD r) := by
  cases hl : r.legs with
  | nil => exact absurd hl h
  | cons a l => simp [headLegD, hl]

/-- On a well-formed leg the code's score is finite and equals the
specification's weighted-sum formula. -/
lemma routeScore_eq_specScore (geom : LatLng → LatLng → ℚ) (mode : TravelMode)
    (leg : DirLeg) (hwf : legWF geom mode leg) :
    routeScore geom mode leg = JVal.fin (specScore geom mode leg) := by
  obtain ⟨hdur, hdd, hsteps, htr⟩ := hwf
  obtain ⟨dv, hdv⟩ : ∃ dv, leg.duration = some dv := by
    cases h : leg.duration with
    | none => rw [h] at hdur; simp at hdur
    | some v => exact ⟨v, rfl⟩
  have hdv0 : dv ≠ 0 := by rw [hdv] at hdur; simpa using hdur
  obtain ⟨st, hst⟩ : ∃ st, leg.steps = some st :=
    Option.isSome_iff_exists.mp hsteps
  unfold routeScore specScore
  rw [hdv, hst]
  cases mode with
  | DRIVING =>
    cases htv : leg.duration_in_traffic with
    | none => simp [jmul, jdiv, jadd, hdd]
    | some t =>
      have ht0 : t ≠ 0 := fun h => htr rfl (by rw [htv, h])
      simp [jmul, jdiv, jadd, hdd, hdv0, ht0]
  | WALKING => simp [jmul, jdiv, jadd, hdd]
  | BICYCLING => simp [jmul, jdiv, jadd, hdd]
  | TRANSIT => simp [jmul, jdiv, jadd, hdd]

/-- Once the incumbent score is the finite score of the incumbent route,
the selection loop computes the strict-improvement fold. -/
lemma pickBest_eq_specFold (geom : LatLng → LatLng → ℚ) (mode : TravelMode)
    (f : DirRoute → ℚ) :
    ∀ (l : List DirRoute) (b : DirRoute),
      (∀ r ∈ l, ∃ leg, r.legs.head? = some leg ∧
        routeScore geom mode leg = JVal.fin (f r)) →
      pickBest geom mode b (JVal.fin (f b)) l =
        (specFold f b l, JVal.fin (f (specFold f b l))) := by
  intro l
  induction l with
  | nil => intro b _; rfl
  | cons r rs ih =>
    intro b h
    obtain ⟨leg, hleg, hsc⟩ := h r (List.mem_cons_self r rs)
    have hrest : ∀ x ∈ rs, ∃ leg, x.legs.head? = some leg ∧
        routeScore geom mode leg = JVal.fin (f x) :=
      fun x hx => h x (List.mem_cons_of_mem r hx)
    by_cases hlt : f r < f b
    · have h1 : specFold f b (r :: rs) = specFold f r rs := by
        simp [specFold, hlt]
      rw [h1]
      simp only [pickBest, hleg]
      rw [hsc]
      simp only [jlt]
      rw [if_pos (decide_eq_true hlt)]
      exact ih r hrest
    · have h1 : specFold f b (r :: rs) = specFold f b rs := by
        simp [specFold, hlt]
      rw [h1]
      simp only [pickBest, hleg]
      rw [hsc]
      simp only [jlt]
      rw [if_neg (by simpa using hlt)]
      exact ih b hrest

/-- The strict-improvement fold returns the earliest minimum: either the
incumbent already beats (weakly) the whole list, or the result sits at an
index whose score strictly beats the incumbent and every earlier entry. -/
lemma specFold_first_argmin (f : DirRoute → ℚ) :
    ∀ (l : List DirRoute) (b : DirRoute),
      (specFold f b l = b ∧ ∀ x ∈ l, f b ≤ f x) ∨
      (∃ i x, l.get? i = some x ∧ specFold f b l = x ∧ f x < f b ∧
        (∀ y ∈ l, f x ≤ f y) ∧
        (∀ j, j < i → ∀ y, l.get? j = some y → f x < f y)) := by
  intro l
  induction l with
  | nil => intro b; exact Or.inl ⟨rfl, by simp⟩
  | cons r rs ih =>
    intro b
    by_cases hlt : f r < f b
    · rcases ih r with ⟨heq, hle⟩ | ⟨i, x, hget, heq, hxr, hall, hpre⟩
      · refine Or.inr ⟨0, r, rfl, ?_, hlt, ?_, ?_⟩
        · simp [specFold, hlt, heq]
        · intro y hy
          rcases List.mem_cons.mp hy with rfl | hy
          · exact le_refl _
          · exact hle y hy
        · intro j hj
          exact absurd hj (Nat.not_lt_zero j)
      · refine Or.inr ⟨i + 1, x, by simpa using hget, ?_,
          lt_trans hxr hlt, ?_, ?_⟩
        · simp [specFold, hlt, heq]
        · intro y hy
          rcases List.mem_cons.mp hy with rfl | hy
          · exact le_of_lt hxr
          · exact hall y hy
        · intro j hj y hget'
          cases j with
          | zero =>
            simp only [List.get?_cons_zero, Option.some.injEq] at hget'
            rw [← hget']
            exact hxr
          | succ k =>
            simp only [List.get?_cons_succ] at hget'
            exact hpre k (by omega) y hget'
    · rcases ih b with ⟨heq, hle⟩ | ⟨i, x, hget, heq, hxb, hall, hpre⟩
      · refine Or.inl ⟨by simp [specFold, hlt, heq], ?_⟩
        intro y hy
        rcases List.mem_cons.mp hy with rfl | hy
        · exact le_of_not_lt hlt
        · exact hle y hy
      · refine Or.inr ⟨i + 1, x, by simpa using hget,
          by simp [specFold, hlt, heq], hxb, ?_, ?_⟩
        · intro y hy
          rcases List.mem_cons.mp hy with rfl | hy
          · exact le_of_lt (lt_of_lt_of_le hxb (le_of_not_lt hlt))
          · exact hall y hy
        · intro j hj y hget'
          cases j with
          | zero =>
            simp only [List.get?_cons_zero, Option.some.injEq] at hget'
            rw [← hget']
            exact lt_of_lt_of_le hxb (le_of_not_lt hlt)
          | succ k =>
            simp only [List.get?_cons_succ] at hget'
            exact hpre k (by omega) y hget'

/-- C9: on well-formed candidates, `calculateRoute` keeps the route whose
specification score — duration × (actual/direct distance ratio) ×
(traffic/base-duration ratio, driving only) + steps × 30 s +
(transit steps − 1) × 900 s (transit only) — is minimal, and on ties the
earliest route in provider order. -/
theorem calculateRoute_picks_first_min (geom : LatLng → LatLng → ℚ)
    (mode : TravelMode) (routes : List DirRoute)
    (hne : routes ≠ [])
    (hwf : ∀ r ∈ routes, r.legs ≠ [] ∧ legWF geom mode (headLegD r)) :
    ∃ b i, calculateRouteBest geom mode routes = some b ∧
      routes.get? i = some b ∧
      (∀ r ∈ routes, routeSpecScore geom mode b ≤ routeSpecScore geom mode r) ∧
      (∀ j, j < i → ∀ r, routes.get? j = some r →
        routeSpecScore geom mode b < routeSpecScore geom mode r) := by
  obtain ⟨r0, rest, rfl⟩ : ∃ r0 rest, routes = r0 :: rest := by
    cases routes with
    | nil => exact absurd rfl hne
    | cons a l => exact ⟨a, l, rfl⟩
  have hscore : ∀ r ∈ r0 :: rest, ∃ leg, r.legs.head? = some leg ∧
      routeScore geom mode leg = JVal.fin (routeSpecScore geom mode r) := by
    intro r hr
    obtain ⟨hnil, hw⟩ := hwf r hr
    exact ⟨headLegD r, head?_eq_headLegD r hnil,
      routeScore_eq_specScore geom mode _ hw⟩
  obtain ⟨leg0, hleg0, hsc0⟩ := hscore r0 (List.mem_cons_self r0 rest)
  have hstart : calculateRouteBest geom mode (r0 :: rest) =
      some (pickBest geom mode r0
        (JVal.fin (routeSpecScore geom mode r0)) rest).1 := by
    simp only [calculateRouteBest, pickBest, hleg0]
    rw [hsc0]
    simp [jlt]
  rw [pickBest_eq_specFold geom mode (routeSpecScore geom mode) rest r0
    (fun x hx => hscore x (List.mem_cons_of_mem r0 hx))] at hstart
  rcases specFold_first_argmin (routeSpecScore geom mode) rest r0 with
    ⟨heq, hle⟩ | ⟨i, x, hget, heq, hxr, hall, hpre⟩
  · refine ⟨r0, 0, ?_, rfl, ?_, ?_⟩
    · rw [hstart, heq]
    · intro r hr
      rcases List.mem_cons.mp hr with rfl | hr
      · exact le_refl _
      · exact hle r hr
    · intro j hj
      exact absurd hj (Nat.not_lt_zero j)
  · refine ⟨x, i + 1, ?_, by simpa using hget, ?_, ?_⟩
    · rw [hstart, heq]
    · intro r hr
      rcases List.mem_cons.mp hr with rfl | hr
      · exact le_of_lt hxr
      · exact hall r hr
    · intro j hj r hget'
      cases j with
      | zero =>
        simp only [List.get?_cons_zero, Option.some.injEq] at hget'
        rw [← hget']
        exact hxr
      | succ k =>
        simp only [List.get?_cons_succ] at hget'
        exact hpre k (by omega) r hget'

/-- The direct-distance collaborator used in concrete scoring instances:
every pair of points is 500 m apart. -/
def g1 : LatLng → LatLng → ℚ := fun _ _ => 500

/-- A 600 s / 1000 m walking leg with two steps. -/
def legA : DirLeg :=
  { duration := some 600
    distance := some 1000
    duration_in_traffic := none
    steps := some [DirStep.mk TravelMode.WALKING, DirStep.mk TravelMode.WALKING]
    start_location := LatLng.mk 0 0
    end_location := LatLng.mk 0 1 }

/-- A 300 s / 600 m walking leg with one step. -/
def legB : DirLeg :=
  { duration := some 300
    distance := some 600
    duration_in_traffic := none
    steps := some [DirStep.mk TravelMode.WALKING]
    start_location := LatLng.mk 0 0
    end_location := LatLng.mk 0 1 }

/-- Witness for the C9 theorem on two concrete walking candidates. -/
theorem calculateRoute_picks_first_min_witness :
    ∃ b i, calculateRouteBest g1 TravelMode.WALKING
        [DirRoute.mk [legA], DirRoute.mk [legB]] = some b ∧
      [DirRoute.mk [legA], DirRoute.mk [legB]].get? i = some b ∧
      (∀ r ∈ [DirRoute.mk [legA], DirRoute.mk [legB]],
        routeSpecScore g1 TravelMode.WALKING b ≤
          routeSpecScore g1 TravelMode.WALKING r) ∧
      (∀ j, j < i → ∀ r, [DirRoute.mk [legA], DirRoute.mk [legB]].get? j = some r →
        routeSpecScore g1 TravelMode.WALKING b <
          routeSpecScore g1 TravelMode.WALKING r) :=
  by
  apply calculateRoute_picks_first_min g1 TravelMode.WALKING
  · simp
  · norm_num [legWF, headLegD, g1, legA, legB]
    exact fun h => nomatch h

/-- C10: in transit mode, a leg whose steps array holds no transit step gets
a transfer term of (0 − 1) × 900 = −900: the scorer subtracts 900 s from
that route's score. -/
theorem transit_without_transit_steps_gets_minus_900
    (geom : LatLng → LatLng → ℚ) (leg : DirLeg) (dv dist : ℚ)
    (st : List DirStep)
    (hd : leg.duration = some dv)
    (hdist : leg.distance = some dist)
    (hst : leg.steps = some st)
    (hnone : st.filter (fun s => s.travel_mode == TravelMode.TRANSIT) = [])
    (hdd : geom leg.start_location leg.end_location ≠ 0) :
    (((((st.filter fun s =>
          s.travel_mode == TravelMode.TRANSIT).length : ℤ) - 1 : ℤ) : ℚ) * 900
        = -900) ∧
    routeScore geom TravelMode.TRANSIT leg =
      JVal.fin (dv * (dist / geom leg.start_location leg.end_location) +
        (st.length : ℚ) * 30 - 900) := by
  constructor
  · rw [hnone]
    norm_num
  · unfold routeScore
    rw [hd, hdist, hst]
    simp only [hnone]
    simp [jmul, jdiv, jadd, hdd]
    ring

/-- A transit-mode candidate leg consisting of walking steps only. -/
def walkOnlyLeg : DirLeg :=
  { duration := some 600
    distance := some 1000
    duration_in_traffic := none
    steps := some [DirStep.mk TravelMode.WALKING, DirStep.mk TravelMode.WALKING]
    start_location := LatLng.mk 0 0
    end_location := LatLng.mk 0 1 }

/-- Witness for the C10 theorem: the all-walking leg scores
600 × (1000/500) + 2 × 30 − 900 = 360 in transit mode. -/
theorem transit_without_transit_steps_gets_minus_900_witness :
    routeScore g1 TravelMode.TRANSIT walkOnlyLeg = JVal.fin 360 := by
  have h := (transit_without_transit_steps_gets_minus_900 g1 walkOnlyLeg
    600 1000 [DirStep.mk TravelMode.WALKING, DirStep.mk TravelMode.WALKING]
    rfl rfl rfl (by decide) (by decide)).2
  rw [h]
  simp only [g1, JVal.fin.injEq, List.length_cons, List.length_nil]
  norm_num
